import Mathlib

/-!
# Verification of the Tmxloader map-document resolver

A shallow embedding, in Lean 4, of the parts of the `tmxloader`
repository (files `tmxloader/utils.py` and `tmxloader/loader.py`) that
the verified properties concern: global-id flag decoding, the
tile-layer grid decoder (binary little-endian and CSV paths), the
map-wide tile registry with placeholder-tile synthesis, tileset lookup
by gid, the property bag, the layer-tag dispatch of the document
assembler, and generic attribute population.

Modelling conventions:
* Python `int` is arbitrary precision; raw gids and byte values are
  `Nat` (32-bit-ness appears as explicit `< 2 ^ 32` hypotheses).
* Python `dict` (the tile registry `map.tiles`, the property bag
  `self.properties`) is an association list updated with Python
  assignment semantics: replace in place when the key exists,
  append otherwise.
* Python exceptions are `Except` error values; where the source
  mutates shared state before raising, functions return the state
  reached so far next to the `Except` result.
* `base64.b64decode` and `zlib.decompress` are Python standard
  library collaborators, not code of this repository; the byte
  sequences they produce are taken as inputs (the inflater is an
  explicit function argument where a claim needs it).
-/

deriving instance DecidableEq for Except

namespace Tmxloader

/-! ## utils.py: flag constants and decode_gid -/

/-- utils.py line 8: `FLIPPED_HORIZONTALLY_FLAG = 0x80000000`. -/
def FLIPPED_HORIZONTALLY_FLAG : Nat := 0x80000000

/-- utils.py line 6: `FLIPPED_VERTICALLY_FLAG = 0x40000000`. -/
def FLIPPED_VERTICALLY_FLAG : Nat := 0x40000000

/-- utils.py line 7: `FLIPPED_DIAGONALLY_FLAG = 0x20000000`. -/
def FLIPPED_DIAGONALLY_FLAG : Nat := 0x20000000

/-- utils.py line 10: the named triple
`TextureFlags = namedtuple('flags', ('flipped_horizontally, 'flipped_vertically', 'flipped_diagonally'))`. -/
structure TextureFlags where
  flipped_horizontally : Bool
  flipped_vertically : Bool
  flipped_diagonally : Bool
deriving DecidableEq, Repr

/-- utils.py lines 132-138, `decode_gid(gid)`: each flag is the boolean
`gid & FLAG == FLAG`, and the returned id is
`gid &= ~(FLIPPED_HORIZONTALLY_FLAG | FLIPPED_VERTICALLY_FLAG | FLIPPED_DIAGONALLY_FLAG)`.
On a nonnegative Python int, `&` with the complement of the mask clears
exactly the mask's bits; on `Nat` that is subtraction of the extracted
bits `gid &&& mask` (which occupy disjoint bit positions of `gid`). -/
def decode_gid (gid : Nat) : Nat × TextureFlags :=
  let flipped_horizontally :=
    gid &&& FLIPPED_HORIZONTALLY_FLAG == FLIPPED_HORIZONTALLY_FLAG
  let flipped_vertically :=
    gid &&& FLIPPED_VERTICALLY_FLAG == FLIPPED_VERTICALLY_FLAG
  let flipped_diagonally :=
    gid &&& FLIPPED_DIAGONALLY_FLAG == FLIPPED_DIAGONALLY_FLAG
  let flags : TextureFlags :=
    ⟨flipped_horizontally, flipped_vertically, flipped_diagonally⟩
  (gid -
    (gid &&&
      (FLIPPED_HORIZONTALLY_FLAG ||| FLIPPED_VERTICALLY_FLAG |||
        FLIPPED_DIAGONALLY_FLAG)),
   flags)

/-- The combined flag mask extracts exactly bit block 29..31. -/
theorem land_flag_mask (g : Nat) :
    g &&&
        (FLIPPED_HORIZONTALLY_FLAG ||| FLIPPED_VERTICALLY_FLAG |||
          FLIPPED_DIAGONALLY_FLAG) =
      2 ^ 29 * (g / 2 ^ 29 % 2 ^ 3) := by
  have hM :
      (FLIPPED_HORIZONTALLY_FLAG ||| FLIPPED_VERTICALLY_FLAG |||
          FLIPPED_DIAGONALLY_FLAG) = (2 ^ 3 - 1) <<< 29 := by
    decide
  have h2 : 2 ^ 29 * (g / 2 ^ 29 % 2 ^ 3) = (g >>> 29 % 2 ^ 3) <<< 29 := by
    rw [Nat.shiftLeft_eq, Nat.shiftRight_eq_div_pow, Nat.mul_comm]
  rw [hM, h2]
  refine Nat.eq_of_testBit_eq fun i => ?_
  simp only [Nat.testBit_and, Nat.testBit_shiftLeft, Nat.testBit_mod_two_pow,
    Nat.testBit_shiftRight, Nat.testBit_two_pow_sub_one]
  by_cases h29 : 29 ≤ i
  · simp [h29, Nat.add_sub_cancel' h29, Bool.and_comm, Bool.and_left_comm,
      Bool.and_assoc]
  · simp [h29]

/-- For 32-bit raw gids, the id component of `decode_gid` is the low
29 bits. -/
theorem decode_gid_fst (g : Nat) (hg : g < 2 ^ 32) :
    (decode_gid g).1 = g % 2 ^ 29 := by
  have h2 : g / 2 ^ 29 < 2 ^ 3 := by
    apply Nat.div_lt_of_lt_mul
    calc g < 2 ^ 32 := hg
      _ = 2 ^ 29 * 2 ^ 3 := by norm_num
  have h3 : g / 2 ^ 29 % 2 ^ 3 = g / 2 ^ 29 := Nat.mod_eq_of_lt h2
  have h4 := Nat.div_add_mod g (2 ^ 29)
  show g - _ = _
  rw [land_flag_mask, h3]
  omega

/-- Extracting a single power-of-two bit and comparing with `==`
is exactly `testBit`. -/
theorem land_two_pow_beq (g k : Nat) :
    (g &&& 2 ^ k == 2 ^ k) = g.testBit k := by
  rw [Nat.and_two_pow]
  cases h : g.testBit k
  · simp only [Bool.toNat_false, Nat.zero_mul, beq_eq_false_iff_ne, ne_eq]
    exact (Nat.two_pow_pos k).ne
  · simp only [Bool.toNat_true, Nat.one_mul, beq_self_eq_true]

/-- The flag component of `decode_gid` reads bits 31, 30, 29. -/
theorem decode_gid_snd (g : Nat) :
    (decode_gid g).2 = ⟨g.testBit 31, g.testBit 30, g.testBit 29⟩ := by
  show (⟨_, _, _⟩ : TextureFlags) = _
  have h31 : FLIPPED_HORIZONTALLY_FLAG = 2 ^ 31 := by decide
  have h30 : FLIPPED_VERTICALLY_FLAG = 2 ^ 30 := by decide
  have h29 : FLIPPED_DIAGONALLY_FLAG = 2 ^ 29 := by decide
  rw [h31, h30, h29, land_two_pow_beq, land_two_pow_beq, land_two_pow_beq]

/-- Any value below `2 ^ 29` has no flag bit set. -/
theorem land_flag_mask_eq_zero (x : Nat) (hx : x < 2 ^ 29) :
    x &&&
        (FLIPPED_HORIZONTALLY_FLAG ||| FLIPPED_VERTICALLY_FLAG |||
          FLIPPED_DIAGONALLY_FLAG) = 0 := by
  rw [land_flag_mask, Nat.div_eq_of_lt hx]
  simp

/-- Modelled from the spec's round-trip law (spec section 8): re-encode
an id by or-ing the chosen flag bits into it. -/
def encode_gid (id : Nat) (flags : TextureFlags) : Nat :=
  ((id ||| (if flags.flipped_horizontally then FLIPPED_HORIZONTALLY_FLAG else 0)) |||
      (if flags.flipped_vertically then FLIPPED_VERTICALLY_FLAG else 0)) |||
    (if flags.flipped_diagonally then FLIPPED_DIAGONALLY_FLAG else 0)

/-- `testBit` of a conditionally present single bit. -/
theorem testBit_flag_bit (b : Bool) (k j : Nat) :
    (if b then (2 ^ k : Nat) else 0).testBit j = (b && decide (k = j)) := by
  cases b <;> simp [Nat.testBit_two_pow]

/-- Masking a conditionally present flag bit to the low 29 bits gives 0
whenever the flag constant itself has no low bits. -/
theorem flag_bit_land_low (b : Bool) (c : Nat) (hc : c &&& (2 ^ 29 - 1) = 0) :
    (if b then c else 0) &&& (2 ^ 29 - 1) = 0 := by
  cases b
  · simp
  · simpa using hc

/-- C1: for every 32-bit raw gid `g`, `decode_gid g` returns the id
`g` with the three high flag bits cleared (so the id carries none of
them) together with the triple of booleans reading bits 31, 30, 29
(horizontal, vertical, diagonal); and for every id below `2 ^ 29` and
every flag triple, decoding the re-encoded value gives back exactly
the id and the flags. -/
theorem c1_decode_gid_bitexact (g id0 : Nat) (flags0 : TextureFlags)
    (hg : g < 2 ^ 32) (hid : id0 < 2 ^ 29) :
    ((decode_gid g).1 = g &&& (2 ^ 29 - 1) ∧
      (decode_gid g).1 &&&
          (FLIPPED_HORIZONTALLY_FLAG ||| FLIPPED_VERTICALLY_FLAG |||
            FLIPPED_DIAGONALLY_FLAG) = 0 ∧
      (decode_gid g).2 = ⟨g.testBit 31, g.testBit 30, g.testBit 29⟩) ∧
    decode_gid (encode_gid id0 flags0) = (id0, flags0) := by
  have hfst : (decode_gid g).1 = g % 2 ^ 29 := decode_gid_fst g hg
  have hmod : g &&& (2 ^ 29 - 1) = g % 2 ^ 29 :=
    Nat.and_pow_two_sub_one_eq_mod g 29
  refine ⟨⟨by rw [hfst, hmod], ?_, decode_gid_snd g⟩, ?_⟩
  · rw [hfst]
    exact land_flag_mask_eq_zero _ (Nat.mod_lt _ (by norm_num))
  · -- the round trip
    obtain ⟨fh, fv, fd⟩ := flags0
    set e := encode_gid id0 ⟨fh, fv, fd⟩ with he
    have hH : FLIPPED_HORIZONTALLY_FLAG < 2 ^ 32 := by decide
    have hV : FLIPPED_VERTICALLY_FLAG < 2 ^ 32 := by decide
    have hD : FLIPPED_DIAGONALLY_FLAG < 2 ^ 32 := by decide
    have hbit : ∀ b : Bool, ∀ c : Nat, c < 2 ^ 32 → (if b then c else 0) < 2 ^ 32 := by
      intro b c hc
      cases b
      · exact Nat.two_pow_pos 32
      · exact hc
    have he32 : e < 2 ^ 32 := by
      refine Nat.or_lt_two_pow (Nat.or_lt_two_pow (Nat.or_lt_two_pow ?_ ?_) ?_) ?_
      · exact lt_trans hid (by norm_num)
      · exact hbit _ _ hH
      · exact hbit _ _ hV
      · exact hbit _ _ hD
    have hefst : (decode_gid e).1 = id0 := by
      rw [decode_gid_fst e he32, ← Nat.and_pow_two_sub_one_eq_mod, he,
        encode_gid, Nat.and_distrib_right, Nat.and_distrib_right,
        Nat.and_distrib_right,
        Nat.and_pow_two_sub_one_of_lt_two_pow hid,
        flag_bit_land_low fh FLIPPED_HORIZONTALLY_FLAG (by decide),
        flag_bit_land_low fv FLIPPED_VERTICALLY_FLAG (by decide),
        flag_bit_land_low fd FLIPPED_DIAGONALLY_FLAG (by decide)]
      simp
    have hidbit : ∀ k, 29 ≤ k → id0.testBit k = false := by
      intro k hk
      exact Nat.testBit_lt_two_pow
        (lt_of_lt_of_le hid (Nat.pow_le_pow_right (by norm_num) hk))
    have hesnd : (decode_gid e).2 = ⟨fh, fv, fd⟩ := by
      rw [decode_gid_snd e]
      have hH' : FLIPPED_HORIZONTALLY_FLAG = 2 ^ 31 := by decide
      have hV' : FLIPPED_VERTICALLY_FLAG = 2 ^ 30 := by decide
      have hD' : FLIPPED_DIAGONALLY_FLAG = 2 ^ 29 := by decide
      have hb : ∀ j, e.testBit j =
          (id0.testBit j || (fh && decide (31 = j)) || (fv && decide (30 = j)) ||
            (fd && decide (29 = j))) := by
        intro j
        rw [he, encode_gid, hH', hV', hD', Nat.testBit_or, Nat.testBit_or,
          Nat.testBit_or, testBit_flag_bit, testBit_flag_bit, testBit_flag_bit]
      refine TextureFlags.mk.injEq _ _ _ _ _ _ ▸ ?_
      refine ⟨?_, ?_, ?_⟩
      · rw [hb 31, hidbit 31 (by norm_num)]
        simp
      · rw [hb 30, hidbit 30 (by norm_num)]
        simp
      · rw [hb 29, hidbit 29 (by norm_num)]
        simp
    calc decode_gid e = ((decode_gid e).1, (decode_gid e).2) := rfl
      _ = (id0, ⟨fh, fv, fd⟩) := by rw [hefst, hesnd]

/-- Witness for C1 at a concrete input: raw gid 0xA0000007 (horizontal
and diagonal flags on id 7), and the round trip at id 5. -/
theorem c1_decode_gid_bitexact_witness :
    ((decode_gid 0xA0000007).1 = 0xA0000007 &&& (2 ^ 29 - 1) ∧
      (decode_gid 0xA0000007).1 &&&
          (FLIPPED_HORIZONTALLY_FLAG ||| FLIPPED_VERTICALLY_FLAG |||
            FLIPPED_DIAGONALLY_FLAG) = 0 ∧
      (decode_gid 0xA0000007).2 =
        ⟨(0xA0000007 : Nat).testBit 31, (0xA0000007 : Nat).testBit 30,
          (0xA0000007 : Nat).testBit 29⟩) ∧
    decode_gid (encode_gid 5 ⟨true, false, true⟩) = (5, ⟨true, false, true⟩) :=
  c1_decode_gid_bitexact 0xA0000007 5 ⟨true, false, true⟩ (by decide) (by decide)

/-! ## Python dicts as association lists

`map.tiles` and each entity's `self.properties` are Python dicts.
`setKey` is dict assignment (replace in place when the key exists,
append otherwise), `getKey` is lookup. -/

def setKey {α β : Type} [DecidableEq α] : List (α × β) → α → β → List (α × β)
  | [], k, v => [(k, v)]
  | (k', v') :: rest, k, v =>
    if k' = k then (k, v) :: rest else (k', v') :: setKey rest k v

def getKey {α β : Type} [DecidableEq α] : List (α × β) → α → Option β
  | [], _ => none
  | (k', v') :: rest, k => if k' = k then some v' else getKey rest k

theorem getKey_setKey_self {α β : Type} [DecidableEq α]
    (l : List (α × β)) (k : α) (v : β) : getKey (setKey l k v) k = some v := by
  induction l with
  | nil => simp [setKey, getKey]
  | cons p rest ih =>
    obtain ⟨k', v'⟩ := p
    by_cases h : k' = k
    · simp [setKey, getKey, h]
    · simp [setKey, getKey, h, ih]

theorem getKey_setKey_ne {α β : Type} [DecidableEq α]
    (l : List (α × β)) (k k0 : α) (v : β) (h : k ≠ k0) :
    getKey (setKey l k v) k0 = getKey l k0 := by
  induction l with
  | nil => simp [setKey, getKey, h]
  | cons p rest ih =>
    obtain ⟨k', v'⟩ := p
    by_cases h' : k' = k
    · subst h'
      simp [setKey, getKey, h]
    · simp [setKey, getKey, h', ih]

/-! ## loader.py: TileSet, the tile registry and get_tileset_by_gid -/

/-- loader.py lines 428-447, the TileSet attributes the verified
operations read or write: `firstgid`, the shared cell size
`tilewidth`/`tileheight`, and the running `maxgid` (initialised to 0).
Attributes not touched by any verified operation (name, margin,
spacing, image width/height, trans, source) are omitted. -/
structure TileSetSt where
  firstgid : Nat
  tilewidth : Nat
  tileheight : Nat
  maxgid : Nat
deriving DecidableEq, Repr

/-- loader.py lines 239-310, the TileElement attributes a placeholder
tile created through `add_tile(None, gid=..., width=..., height=...)`
receives; all its other attributes keep their `None`/0 defaults. -/
structure TileRec where
  gid : Nat
  width : Nat
  height : Nat
deriving DecidableEq, Repr

/-- The map-wide tile registry `map.tiles`, a dict keyed by gid. -/
abbrev Registry := List (Nat × TileRec)

/-- loader.py lines 624-627, `TileMap.get_tileset_by_gid`: scan the
tilesets in reverse declaration order and return the first whose
`firstgid <= gid`; fall through to `None`.  The recursion consults the
tail (the later declarations) first, which is exactly the reversed
scan. -/
def get_tileset_by_gid (tilesets : List TileSetSt) (gid : Nat) : Option TileSetSt :=
  match tilesets with
  | [] => none
  | t :: rest =>
    match get_tileset_by_gid rest gid with
    | some r => some r
    | none => if t.firstgid ≤ gid then some t else none

/-- C3: with tilesets declaration-ordered by strictly ascending
firstgid, `get_tileset_by_gid` returns the tileset with the greatest
firstgid at most gid, and returns None exactly when gid is below every
firstgid. -/
theorem c3_get_tileset_by_gid (tilesets : List TileSetSt) (gid : Nat)
    (hsorted : tilesets.Pairwise (fun a b => a.firstgid < b.firstgid)) :
    (get_tileset_by_gid tilesets gid = none ↔
      ∀ t ∈ tilesets, gid < t.firstgid) ∧
    ∀ t0, get_tileset_by_gid tilesets gid = some t0 →
      t0 ∈ tilesets ∧ t0.firstgid ≤ gid ∧
        ∀ t ∈ tilesets, t.firstgid ≤ gid → t.firstgid ≤ t0.firstgid := by
  induction tilesets with
  | nil => simp [get_tileset_by_gid]
  | cons t rest ih =>
    obtain ⟨hlt, hrest⟩ := List.pairwise_cons.mp hsorted
    obtain ⟨ihnone, ihsome⟩ := ih hrest
    constructor
    · -- the None characterisation
      cases hr : get_tileset_by_gid rest gid with
      | some r =>
        simp only [get_tileset_by_gid, hr]
        constructor
        · intro h
          exact absurd h (by simp)
        · intro h
          have := h r (List.mem_cons_of_mem t ((ihsome r hr).1))
          exact absurd ((ihsome r hr).2.1) (by omega)
      | none =>
        simp only [get_tileset_by_gid, hr]
        by_cases hf : t.firstgid ≤ gid
        · simp only [hf, if_pos]
          constructor
          · intro h
            exact absurd h (by simp)
          · intro h
            have := h t (List.mem_cons_self t rest)
            omega
        · simp only [hf, if_neg, not_false_iff]
          constructor
          · intro _ t' ht'
            rcases List.mem_cons.mp ht' with rfl | ht'
            · omega
            · exact ihnone.mp hr t' ht'
          · intro _
            trivial
    · -- the Some characterisation
      intro t0 h0
      cases hr : get_tileset_by_gid rest gid with
      | some r =>
        simp only [get_tileset_by_gid, hr] at h0
        obtain rfl : r = t0 := by injection h0
        obtain ⟨hmem, hle, hmax⟩ := ihsome r hr
        refine ⟨List.mem_cons_of_mem t hmem, hle, ?_⟩
        intro t' ht' hle'
        rcases List.mem_cons.mp ht' with rfl | ht'
        · exact le_of_lt (hlt r hmem)
        · exact hmax t' ht' hle'
      | none =>
        simp only [get_tileset_by_gid, hr] at h0
        by_cases hf : t.firstgid ≤ gid
        · rw [if_pos hf] at h0
          obtain rfl : t = t0 := by injection h0
          refine ⟨List.mem_cons_self t rest, hf, ?_⟩
          intro t' ht' hle'
          rcases List.mem_cons.mp ht' with rfl | ht'
          · exact le_refl _
          · exact absurd hle' (by have := ihnone.mp hr t' ht'; omega)
        · rw [if_neg hf] at h0
          exact absurd h0 (by simp)

/-- Witness for C3: two tilesets with firstgids 1 and 5, queried at
gid 6 (the second tileset wins) — instantiating the characterisation. -/
theorem c3_get_tileset_by_gid_witness :
    (get_tileset_by_gid [⟨1, 16, 16, 0⟩, ⟨5, 8, 8, 0⟩] 6 = none ↔
      ∀ t ∈ [(⟨1, 16, 16, 0⟩ : TileSetSt), ⟨5, 8, 8, 0⟩], 6 < t.firstgid) ∧
    ∀ t0, get_tileset_by_gid [⟨1, 16, 16, 0⟩, ⟨5, 8, 8, 0⟩] 6 = some t0 →
      t0 ∈ [(⟨1, 16, 16, 0⟩ : TileSetSt), ⟨5, 8, 8, 0⟩] ∧ t0.firstgid ≤ 6 ∧
        ∀ t ∈ [(⟨1, 16, 16, 0⟩ : TileSetSt), ⟨5, 8, 8, 0⟩],
          t.firstgid ≤ 6 → t.firstgid ≤ t0.firstgid :=
  c3_get_tileset_by_gid [⟨1, 16, 16, 0⟩, ⟨5, 8, 8, 0⟩] 6 (by decide)

/-! ## loader.py lines 479-484: TileSet.add_tile -/

/-- loader.py lines 479-484, `TileSet.add_tile` on the placeholder
path (`node=None`, keyword arguments gid/width/height): build the
TileElement, store it in the shared registry under `tile.gid`, and
update the running maximum: `if tile.gid > self.maxgid:
self.maxgid = tile.gid`.  Returns the updated tileset, the updated
registry, and the tile. -/
def TileSet.add_tile (ts : TileSetSt) (tiles : Registry)
    (gid width height : Nat) : TileSetSt × Registry × TileRec :=
  let tile : TileRec := ⟨gid, width, height⟩
  ({ ts with maxgid := if gid > ts.maxgid then gid else ts.maxgid },
    setKey tiles gid tile, tile)

/-- A sequence of `add_tile` operations (gid, width, height), folded
over one tileset and the shared registry. -/
def TileSet.add_tiles (ts : TileSetSt) (tiles : Registry) :
    List (Nat × Nat × Nat) → TileSetSt × Registry
  | [] => (ts, tiles)
  | (g, w, h) :: ops =>
    let r := TileSet.add_tile ts tiles g w h
    TileSet.add_tiles r.1 r.2.1 ops

/-- C8 counterexample: a tileset with firstgid 1 registering the tile
with gid 1 — whose local offset is 1 - 1 = 0 — ends with maxgid 1, the
gid itself, not the highest local offset 0.  The id block
`[firstgid, firstgid + maxgid]` is therefore [1, 2], not [1, 1]. -/
theorem c8_maxgid_counterexample :
    (TileSet.add_tile ⟨1, 16, 16, 0⟩ [] 1 16 16).1.maxgid = 1 ∧
    (1 : Nat) - 1 = 0 ∧ (1 : Nat) ≠ 0 := by
  decide

/-- C8 amended: after any sequence of `add_tile` operations, `maxgid`
equals the maximum of its initial value and the highest *gid* (global
id, not local offset) registered through the tileset; `firstgid` is
never touched, so `__iter__` scans gids in
`[firstgid, firstgid + maxgid)` with `maxgid` a global id. -/
theorem c8_maxgid_tracks_max_gid (ts : TileSetSt) (tiles : Registry)
    (ops : List (Nat × Nat × Nat)) :
    (TileSet.add_tiles ts tiles ops).1.maxgid =
      ops.foldl (fun m o => max m o.1) ts.maxgid ∧
    (TileSet.add_tiles ts tiles ops).1.firstgid = ts.firstgid := by
  induction ops generalizing ts tiles with
  | nil => exact ⟨rfl, rfl⟩
  | cons op rest ih =>
    obtain ⟨g, w, h⟩ := op
    have hmax : (if g > ts.maxgid then g else ts.maxgid) = max ts.maxgid g := by
      split <;> omega
    simpa [TileSet.add_tiles, TileSet.add_tile, hmax] using
      ih { ts with maxgid := max ts.maxgid g } (setKey tiles g ⟨g, w, h⟩)

/-! ## loader.py lines 27-46: the property bag -/

/-- Property-bag error taxonomy: duplicate property declaration. -/
inductive PropError
  | duplicateProperty (name : String)
deriving DecidableEq, Repr

/-- loader.py lines 27-34, `Element.set_property`: store the value
under the name (dict assignment, overwriting any previous value).  The
base Element defines no `prepare_prop_...` hook, so the value is
stored as given. -/
def Element.set_property (properties : List (String × String))
    (name value : String) : List (String × String) :=
  setKey properties name value

/-- loader.py lines 36-46, `Element.set_properties_from_node`: walk
the property child nodes; raise if the name is already present in the
bag, otherwise `set_property` it. -/
def Element.set_properties_from_node (properties : List (String × String)) :
    List (String × String) → Except PropError (List (String × String))
  | [] => .ok properties
  | (key, value) :: rest =>
    if (getKey properties key).isSome then
      .error (.duplicateProperty key)
    else
      Element.set_properties_from_node
        (Element.set_property properties key value) rest

/-- C6 counterexample: `set_property` on a name already present
overwrites the stored value and signals nothing — it does not fail
with DuplicateProperty. -/
theorem c6_set_property_overwrites :
    Element.set_property [("color", "red")] "color" "blue" =
      [("color", "blue")] := by
  decide

/-- C6 amended: only populating from a properties node rejects
duplicates — whenever a node entry's name is already present in the
bag, `set_properties_from_node` fails with a DuplicateProperty error
(`set_property` itself silently overwrites). -/
theorem c6_duplicate_from_node_fails (properties : List (String × String))
    (entries : List (String × String)) (name : String)
    (hdup : (getKey properties name).isSome)
    (hmem : name ∈ entries.map Prod.fst) :
    ∃ key, Element.set_properties_from_node properties entries =
      .error (.duplicateProperty key) := by
  induction entries generalizing properties with
  | nil => simp at hmem
  | cons e rest ih =>
    obtain ⟨k, v⟩ := e
    by_cases hk : (getKey properties k).isSome
    · exact ⟨k, by simp [Element.set_properties_from_node, hk]⟩
    · have hne : k ≠ name := by
        rintro rfl
        exact hk hdup
      have hmem' : name ∈ rest.map Prod.fst := by
        rcases List.mem_cons.mp hmem with h | h
        · exact absurd h.symm hne
        · exact h
      have hdup' : (getKey (Element.set_property properties k v) name).isSome := by
        rwa [Element.set_property, getKey_setKey_ne _ _ _ _ hne]
      obtain ⟨key, hkey⟩ := ih (Element.set_property properties k v) hdup' hmem'
      exact ⟨key, by simp [Element.set_properties_from_node, hk, hkey]⟩

/-- Witness for C6 amended: bag already holding "a", node declaring
"b" then "a" — populating fails with a DuplicateProperty error. -/
theorem c6_duplicate_from_node_fails_witness :
    ∃ key, Element.set_properties_from_node [("a", "1")]
        [("b", "2"), ("a", "3")] = .error (.duplicateProperty key) :=
  c6_duplicate_from_node_fails [("a", "1")] [("b", "2"), ("a", "3")] "a"
    (by decide) (by decide)

/-! ## loader.py lines 567-592: the document assembler's layer walk -/

/-- utils.py lines 64-67: the values of the LayerType enum, as
iterated by the Enum metaclass (`tag in LayerType` is membership in
this value set). -/
def LayerType_values : List String := ["layer", "imagelayer", "objectgroup"]

/-- The three layer kinds the assembler can construct. -/
inductive LayerKind
  | tileLayer
  | imageLayer
  | objectGroup
deriving DecidableEq, Repr

/-- Assembly error: loader.py line 592,
`Exception('Unknown layer type: "..."')`. -/
inductive AssembleError
  | unknownLayerType (tag : String)
deriving DecidableEq, Repr

/-- loader.py lines 583-592, `TileMap.add_layer`: dispatch on the tag,
constructing the matching layer kind, else raise the unknown-layer
exception.  (The layer constructors themselves are modelled separately;
this captures the dispatch.) -/
def TileMap.add_layer (tag : String) : Except AssembleError LayerKind :=
  if tag = "layer" then .ok .tileLayer
  else if tag = "imagelayer" then .ok .imageLayer
  else if tag = "objectgroup" then .ok .objectGroup
  else .error (.unknownLayerType tag)

/-- loader.py lines 573-576, the child walk of
`TileMap.init_from_node`: for each child tag in document order, call
`add_layer` only when the tag is in the LayerType value set
(`if tag in LayerType`), otherwise move on. -/
def TileMap.layer_children_pass :
    List String → Except AssembleError (List LayerKind)
  | [] => .ok []
  | tag :: rest =>
    if tag ∈ LayerType_values then
      match TileMap.add_layer tag with
      | .error e => .error e
      | .ok k =>
        match TileMap.layer_children_pass rest with
        | .error e => .error e
        | .ok ks => .ok (k :: ks)
    else TileMap.layer_children_pass rest

/-- The kind a root child tag yields, None for unrecognized tags. -/
def tag_kind (tag : String) : Option LayerKind :=
  if tag = "layer" then some .tileLayer
  else if tag = "imagelayer" then some .imageLayer
  else if tag = "objectgroup" then some .objectGroup
  else none

/-- C7 counterexample: a root child tagged "widget" — neither a
recognized layer tag nor tileset nor properties — is silently skipped
and assembly completes, instead of failing with the unknown-layer
error. -/
theorem c7_unknown_tag_skipped :
    TileMap.layer_children_pass ["tileset", "widget", "layer", "properties"] =
      .ok [LayerKind.tileLayer] := by
  decide

/-- C7 amended: the child walk never fails — children with
unrecognized tags are silently skipped and exactly the recognized
layer tags are constructed in order; the unknown-layer error is raised
only by `add_layer` itself, which the walk never reaches with an
unrecognized tag. -/
theorem c7_layer_children_never_fail (tags : List String) :
    TileMap.layer_children_pass tags = .ok (tags.filterMap tag_kind) ∧
    TileMap.add_layer "widget" = .error (.unknownLayerType "widget") := by
  refine ⟨?_, by decide⟩
  induction tags with
  | nil => rfl
  | cons tag rest ih =>
    by_cases h : tag ∈ LayerType_values
    · have h3 : tag = "layer" ∨ tag = "imagelayer" ∨ tag = "objectgroup" := by
        simpa [LayerType_values] using h
      rcases h3 with rfl | rfl | rfl <;>
        simp [TileMap.layer_children_pass, TileMap.add_layer, tag_kind, ih, h]
    · have h1 : tag ≠ "layer" := fun hh => h (by simp [LayerType_values, hh])
      have h2 : tag ≠ "imagelayer" := fun hh => h (by simp [LayerType_values, hh])
      have h3 : tag ≠ "objectgroup" := fun hh => h (by simp [LayerType_values, hh])
      simp [TileMap.layer_children_pass, h, tag_kind, h1, h2, h3, ih]

/-! ## loader.py lines 313-426: cells and the tile-layer grid decoder -/

/-- The map attributes the layer pipeline reads: grid size, cell size
(`map.size = (width * tilewidth, height * tileheight)`, line 539) and
the y-inversion switch. -/
structure MapCfg where
  width : Nat
  height : Nat
  tilewidth : Nat
  tileheight : Nat
  invert_y : Bool
deriving DecidableEq, Repr

/-- loader.py line 539, `TileMap.size`. -/
def MapCfg.size (cfg : MapCfg) : Nat × Nat :=
  (cfg.width * cfg.tilewidth, cfg.height * cfg.tileheight)

/-- loader.py lines 313-331, the data a constructed Cell stores: the
decoded gid, the flag triple, and the pixel position (grid position
times the referenced tile's size, y flipped against the map pixel
height when the map inverts y; Python ints can go negative there,
hence `Int`). -/
structure CellRec where
  gid : Nat
  flags : TextureFlags
  x : Int
  y : Int
deriving DecidableEq, Repr

/-- The mutable loader state the layer pipeline threads: the map's
tilesets (their maxgid evolves) and the shared tile registry
`map.tiles`. -/
structure LoadSt where
  tilesets : List TileSetSt
  tiles : Registry
deriving DecidableEq, Repr

/-- Errors the tile-layer decoder can raise.
  * `notImplementedError`: loader.py line 395, `raise NotImplementedError`
     on the "qzip" compression marker;
  * `unsupportedCompression`: loader.py line 397,
    `Exception('Unsupported data compression: ...')`;
  * `unsupportedEncoding`: loader.py line 404,
    `Exception('Unsupported data encoding: ...')`;
  * `attributeErrorNone`: loader.py line 425, calling `add_tile` on the
    `None` returned by `get_tileset_by_gid` when no tileset owns the gid;
  * `keyError`: loader.py line 344, `root.tiles[gid]` missing. -/
inductive LoadError
  | notImplementedError
  | unsupportedCompression (c : String)
  | unsupportedEncoding (e : Option String)
  | attributeErrorNone
  | keyError (gid : Nat)
deriving DecidableEq, Repr

/-- True exactly on the `unsupportedCompression` error. -/
def LoadError.is_unsupported_compression : LoadError → Bool
  | .unsupportedCompression _ => true
  | _ => false

/-- The reversed scan of loader.py lines 624-627 again, returning the
position of the matching tileset together with the tileset — a Python
object reference is modelled as declaration index plus value, so the
caller can write the mutated tileset back. -/
def get_tileset_ref_by_gid : List TileSetSt → Nat → Option (Nat × TileSetSt)
  | [], _ => none
  | t :: rest, gid =>
    match get_tileset_ref_by_gid rest gid with
    | some (i, r) => some (i + 1, r)
    | none => if t.firstgid ≤ gid then some (0, t) else none

/-- `get_tileset_by_gid` is the value component of the reference scan. -/
theorem get_tileset_by_gid_eq_ref (tilesets : List TileSetSt) (gid : Nat) :
    get_tileset_by_gid tilesets gid =
      (get_tileset_ref_by_gid tilesets gid).map Prod.snd := by
  induction tilesets with
  | nil => rfl
  | cons t rest ih =>
    show (match get_tileset_by_gid rest gid with
      | some r => some r
      | none => if t.firstgid ≤ gid then some t else none) = _
    rw [ih]
    cases hr : get_tileset_ref_by_gid rest gid with
    | none =>
      show (if t.firstgid ≤ gid then some t else none) = _
      show _ = (match get_tileset_ref_by_gid rest gid with
        | some (i, r) => some (i + 1, r)
        | none => if t.firstgid ≤ gid then some (0, t) else none).map Prod.snd
      rw [hr]
      by_cases hf : t.firstgid ≤ gid <;> simp [hf]
    | some p =>
      obtain ⟨i, r⟩ := p
      show some r = _
      show _ = (match get_tileset_ref_by_gid rest gid with
        | some (i, r) => some (i + 1, r)
        | none => if t.firstgid ≤ gid then some (0, t) else none).map Prod.snd
      rw [hr]
      rfl

/-- The reference scan returns an in-range index holding the returned
tileset. -/
theorem get_tileset_ref_get (tilesets : List TileSetSt) (gid i : Nat)
    (t : TileSetSt) (h : get_tileset_ref_by_gid tilesets gid = some (i, t)) :
    tilesets[i]? = some t := by
  induction tilesets generalizing i with
  | nil => exact absurd h (by simp [get_tileset_ref_by_gid])
  | cons hd rest ih =>
    revert h
    show (match get_tileset_ref_by_gid rest gid with
      | some (i, r) => some (i + 1, r)
      | none => if hd.firstgid ≤ gid then some (0, hd) else none) = some (i, t) → _
    cases hr : get_tileset_ref_by_gid rest gid with
    | some p =>
      obtain ⟨j, r⟩ := p
      intro h
      obtain ⟨rfl, rfl⟩ : j + 1 = i ∧ r = t := by
        have := h
        injection this with h'
        exact ⟨congrArg Prod.fst h', congrArg Prod.snd h'⟩
      simpa using ih j hr
    | none =>
      by_cases hf : hd.firstgid ≤ gid
      · rw [if_pos hf]
        intro h
        obtain ⟨rfl, rfl⟩ : 0 = i ∧ hd = t := by
          injection h with h'
          exact ⟨congrArg Prod.fst h', congrArg Prod.snd h'⟩
        simp
      · rw [if_neg hf]
        intro h
        exact absurd h (by simp)

/-- loader.py lines 423-425, `TileLayer.add_tile`: look the owning
tileset up by gid, then `tileset.add_tile(None, gid=gid,
width=tileset.tilewidth, height=tileset.tileheight)`.  When the lookup
returns `None`, Python dies with an AttributeError on `None.add_tile`.
The tileset's maxgid update is written back at its declaration
position. -/
def TileLayer.add_tile (st : LoadSt) (gid : Nat) : Except LoadError LoadSt :=
  match get_tileset_ref_by_gid st.tilesets gid with
  | none => .error .attributeErrorNone
  | some (i, tileset) =>
    let r := TileSet.add_tile tileset st.tiles gid tileset.tilewidth tileset.tileheight
    .ok ⟨st.tilesets.set i r.1, r.2.1⟩

/-- loader.py lines 316-330, `Cell.__init__`: fetch the referenced
tile from the registry (`self.tile` is `root.tiles[self.gid]`), scale
the grid position by the tile size, and flip y against the map pixel
height when the map inverts y. -/
def Cell.mk' (cfg : MapCfg) (tiles : Registry) (gid : Nat)
    (x y : Nat) (flags : TextureFlags) : Except LoadError CellRec :=
  match getKey tiles gid with
  | none => .error (.keyError gid)
  | some tile =>
    let px : Int := (x : Int) * tile.width
    let py : Int := (y : Int) * tile.height
    let py : Int := if cfg.invert_y then (cfg.size.2 : Int) - py else py
    .ok ⟨gid, flags, px, py⟩

/-- loader.py lines 413-421, `TileLayer.add_cell`: a raw gid of 0
yields an empty slot; otherwise decode the gid, synthesize a
placeholder tile when the decoded gid is not yet registered, and build
the Cell.  The state reached is returned even when an error is raised
(Python mutates `map.tiles` in place). -/
def TileLayer.add_cell (cfg : MapCfg) (st : LoadSt) (gid : Nat)
    (x y : Nat) : LoadSt × Except LoadError (Option CellRec) :=
  if gid = 0 then (st, .ok none)
  else
    let decoded := decode_gid gid
    if (getKey st.tiles decoded.1).isNone then
      match TileLayer.add_tile st decoded.1 with
      | .error e => (st, .error e)
      | .ok st' =>
        (st', (Cell.mk' cfg st'.tiles decoded.1 x y decoded.2).map some)
    else
      (st, (Cell.mk' cfg st.tiles decoded.1 x y decoded.2).map some)

/-- loader.py line 411, the tuple-building generator expression
`tuple(add_cell(next(data), x, y) for y in xrange(height) for x in
xrange(width))`, with Python 2 semantics: a `StopIteration` raised by
`next(data)` on an exhausted payload silently terminates the
enumeration early, so the result simply ends when the payload does. -/
def TileLayer.consume_cells (cfg : MapCfg) (st : LoadSt) :
    List Nat → List (Nat × Nat) →
      LoadSt × Except LoadError (List (Option CellRec))
  | _, [] => (st, .ok [])
  | [], _ :: _ => (st, .ok [])
  | g :: gs, (x, y) :: cs =>
    match TileLayer.add_cell cfg st g x y with
    | (st', .error e) => (st', .error e)
    | (st', .ok c) =>
      match TileLayer.consume_cells cfg st' gs cs with
      | (st'', .error e) => (st'', .error e)
      | (st'', .ok rest) => (st'', .ok (c :: rest))

/-- The grid positions in consumption order: `for y in xrange(height)
for x in xrange(width)` — row-major, y outer. -/
def row_major_coords (width height : Nat) : List (Nat × Nat) :=
  (List.range height).flatMap fun y => (List.range width).map fun x => (x, y)

theorem row_major_coords_length (width height : Nat) :
    (row_major_coords width height).length = height * width := by
  unfold row_major_coords
  induction height with
  | zero => simp
  | succ n ih =>
    rw [List.range_succ, List.flatMap_append, List.length_append, ih]
    simp [Nat.succ_mul]

/-! ## utils.py lines 125-129: unpack_struct (little-endian u32 words) -/

/-- utils.py lines 125-129, `unpack_struct(data)`:
`struct.unpack('<%dI' % (l / format_size), data)` reads
`len(data) / 4` (floor) unsigned 32-bit little-endian words, so up to
three trailing bytes are dropped.  `data` is the byte sequence. -/
def unpack_struct : List Nat → List Nat
  | b0 :: b1 :: b2 :: b3 :: rest =>
    (b0 + 256 * b1 + 65536 * b2 + 16777216 * b3) :: unpack_struct rest
  | _ => []

/-- The little-endian 4-byte encoding of a 32-bit value (what a
well-formed binary tile payload holds for each cell). -/
def encode_u32le (v : Nat) : List Nat :=
  [v % 256, v / 256 % 256, v / 65536 % 256, v / 16777216 % 256]

/-- Unpacking the concatenated little-endian encodings recovers the
values. -/
theorem unpack_struct_encode (vals : List Nat)
    (h32 : ∀ v ∈ vals, v < 2 ^ 32) :
    unpack_struct (vals.flatMap encode_u32le) = vals := by
  induction vals with
  | nil => rfl
  | cons v rest ih =>
    have hv : v < 2 ^ 32 := h32 v (List.mem_cons_self v rest)
    have hrest : ∀ w ∈ rest, w < 2 ^ 32 := fun w hw =>
      h32 w (List.mem_cons_of_mem v hw)
    show (v % 256 + 256 * (v / 256 % 256) + 65536 * (v / 65536 % 256) +
        16777216 * (v / 16777216 % 256)) :: unpack_struct (rest.flatMap encode_u32le) = v :: rest
    rw [ih hrest]
    congr 1
    have h32' : v < 4294967296 := by
      calc v < 2 ^ 32 := hv
        _ = 4294967296 := by norm_num
    omega

/-! ## The CSV path of loader.py lines 400-402

`data.splitlines()`, then per line `line.split(',')`, dropping empty
tokens (`ifilter(None, ...)`), then Python `int` on each token.
Python strings are modelled as lists of characters. -/

/-- Python `str.split(sep)` for a single-character separator: split on
every occurrence, keeping empty pieces. -/
def splitOnChar (c : Char) : List Char → List (List Char)
  | [] => [[]]
  | x :: xs =>
    match splitOnChar c xs with
    | [] => [[]]
    | t :: ts => if x = c then [] :: t :: ts else (x :: t) :: ts

theorem splitOnChar_ne_nil (c : Char) (s : List Char) :
    splitOnChar c s ≠ [] := by
  cases s with
  | nil => simp [splitOnChar]
  | cons x xs =>
    show (match splitOnChar c xs with
      | [] => [[]]
      | t :: ts => if x = c then [] :: t :: ts else (x :: t) :: ts) ≠ []
    cases splitOnChar c xs with
    | nil => simp
    | cons t ts =>
      by_cases h : x = c <;> simp [h]

/-- Python `int` on the all-digit tokens a canonical CSV grid rendering
contains (most-significant digit first). -/
def pyIntDigits (s : List Char) : Nat :=
  s.foldl (fun acc c => 10 * acc + (c.toNat - 48)) 0

/-- loader.py lines 400-402, the CSV branch: split the node text into
lines, split each line on commas, drop empty tokens, parse each token
as an int, and chain the per-line results in order. -/
def csv_layer_gids (text : List Char) : List Nat :=
  ((splitOnChar '\n' text).map fun line =>
    ((splitOnChar ',' line).filter fun tok => tok ≠ []).map pyIntDigits).flatten

/-! The canonical CSV rendering of a value list (spec side: "the CSV
rendering of the same values"): decimal representations joined by
commas on one line. -/

/-- Decimal digits of a value, least significant first. -/
def natToDigitsRev : Nat → List Nat
  | 0 => []
  | n + 1 => ((n + 1) % 10) :: natToDigitsRev ((n + 1) / 10)
decreasing_by exact Nat.div_lt_self (Nat.succ_pos n) (by norm_num)

def digitChar (d : Nat) : Char := Char.ofNat (48 + d)

/-- The decimal rendering of a value, as Python `str(v)` would emit it. -/
def natRepr (n : Nat) : List Char :=
  if n = 0 then ['0'] else ((natToDigitsRev n).reverse).map digitChar

/-- Join tokens with a separator (the shape `",".join(tokens)` has). -/
def joinWith (sep : List Char) : List (List Char) → List Char
  | [] => []
  | [t] => t
  | t :: ts => t ++ sep ++ joinWith sep ts

/-- The CSV rendering of a row-major value list: one line of decimal
values joined by commas. -/
def render_csv (vals : List Nat) : List Char :=
  joinWith [','] (vals.map natRepr)

theorem natToDigitsRev_lt_ten (n : Nat) : ∀ d ∈ natToDigitsRev n, d < 10 := by
  induction n using Nat.strong_induction_on with
  | _ n ih =>
    match n with
    | 0 => simp [natToDigitsRev]
    | m + 1 =>
      rw [natToDigitsRev]
      intro d hd
      rcases List.mem_cons.mp hd with rfl | hd
      · exact Nat.mod_lt _ (by norm_num)
      · exact ih ((m + 1) / 10) (Nat.div_lt_self (Nat.succ_pos m) (by norm_num)) d hd

theorem natToDigitsRev_val (n : Nat) :
    ((natToDigitsRev n).reverse).foldl (fun a d => 10 * a + d) 0 = n := by
  induction n using Nat.strong_induction_on with
  | _ n ih =>
    match n with
    | 0 => simp [natToDigitsRev]
    | m + 1 =>
      rw [natToDigitsRev, List.reverse_cons, List.foldl_append,
        ih ((m + 1) / 10) (Nat.div_lt_self (Nat.succ_pos m) (by norm_num))]
      show 10 * ((m + 1) / 10) + (m + 1) % 10 = m + 1
      omega

theorem charDigit_digitChar (d : Nat) (hd : d < 10) :
    (digitChar d).toNat - 48 = d := by
  interval_cases d <;> decide

/-- Parsing the decimal rendering recovers the value. -/
theorem pyIntDigits_natRepr (n : Nat) : pyIntDigits (natRepr n) = n := by
  unfold natRepr
  by_cases h0 : n = 0
  · subst h0
    decide
  · rw [if_neg h0]
    unfold pyIntDigits
    have hfold : ∀ (ds : List Nat) (acc : Nat), (∀ d ∈ ds, d < 10) →
        (ds.map digitChar).foldl (fun acc c => 10 * acc + (c.toNat - 48)) acc =
          ds.foldl (fun a d => 10 * a + d) acc := by
      intro ds
      induction ds with
      | nil => intro acc _; rfl
      | cons d rest ih =>
        intro acc hlt
        show (rest.map digitChar).foldl _ (10 * acc + ((digitChar d).toNat - 48)) = _
        rw [charDigit_digitChar d (hlt d (List.mem_cons_self d rest))]
        exact ih _ fun d' hd' => hlt d' (List.mem_cons_of_mem d hd')
    rw [hfold _ 0 fun d hd => natToDigitsRev_lt_ten n d (List.mem_reverse.mp hd)]
    exact natToDigitsRev_val n

theorem natRepr_ne_nil (n : Nat) : natRepr n ≠ [] := by
  unfold natRepr
  by_cases h0 : n = 0
  · simp [h0]
  · rw [if_neg h0]
    intro h
    have hrev : natToDigitsRev n = [] := by
      cases hh : natToDigitsRev n with
      | nil => rfl
      | cons a l => simp [hh] at h
    match n, h0 with
    | m + 1, _ => rw [natToDigitsRev] at hrev; exact absurd hrev (by simp)

/-- Every character of a decimal rendering is a digit character, hence
neither a comma nor a newline. -/
theorem natRepr_chars (n : Nat) :
    ∀ ch ∈ natRepr n, ch ≠ ',' ∧ ch ≠ '\n' := by
  unfold natRepr
  by_cases h0 : n = 0
  · simp [h0]
  · rw [if_neg h0]
    intro ch hch
    obtain ⟨d, hd, rfl⟩ := List.mem_map.mp hch
    have hd10 : d < 10 := natToDigitsRev_lt_ten n d (List.mem_reverse.mp hd)
    constructor <;> (interval_cases d <;> decide)

theorem splitOnChar_not_mem (c : Char) (s : List Char) (h : c ∉ s) :
    splitOnChar c s = [s] := by
  induction s with
  | nil => rfl
  | cons x xs ih =>
    have hx : x ≠ c := fun hh => h (hh ▸ List.mem_cons_self x xs)
    have hxs : c ∉ xs := fun hh => h (List.mem_cons_of_mem x hh)
    show (match splitOnChar c xs with
      | [] => [[]]
      | t :: ts => if x = c then [] :: t :: ts else (x :: t) :: ts) = [x :: xs]
    rw [ih hxs]
    simp [hx]

theorem splitOnChar_prepend (c : Char) (t rest : List Char) (h : c ∉ t) :
    splitOnChar c (t ++ c :: rest) = t :: splitOnChar c rest := by
  induction t with
  | nil =>
    show (match splitOnChar c rest with
      | [] => [[]]
      | t :: ts => if c = c then [] :: t :: ts else (c :: t) :: ts) = [] :: splitOnChar c rest
    cases hr : splitOnChar c rest with
    | nil => exact absurd hr (splitOnChar_ne_nil c rest)
    | cons t0 ts => simp
  | cons a t' ih =>
    have ha : a ≠ c := fun hh => h (hh ▸ List.mem_cons_self a t')
    have ht' : c ∉ t' := fun hh => h (List.mem_cons_of_mem a hh)
    show (match splitOnChar c (t' ++ c :: rest) with
      | [] => [[]]
      | t :: ts => if a = c then [] :: t :: ts else (a :: t) :: ts) = _
    rw [ih ht']
    simp [ha]

theorem splitOnChar_joinWith (c : Char) (tokens : List (List Char))
    (hne : tokens ≠ []) (hfree : ∀ t ∈ tokens, c ∉ t) :
    splitOnChar c (joinWith [c] tokens) = tokens := by
  induction tokens with
  | nil => exact absurd rfl hne
  | cons t ts ih =>
    cases ts with
    | nil =>
      show splitOnChar c t = [t]
      exact splitOnChar_not_mem c t (hfree t (List.mem_cons_self t []))
    | cons t2 ts' =>
      show splitOnChar c (t ++ [c] ++ joinWith [c] (t2 :: ts')) = _
      rw [List.append_assoc]
      show splitOnChar c (t ++ c :: joinWith [c] (t2 :: ts')) = _
      rw [splitOnChar_prepend c t _ (hfree t (List.mem_cons_self t _)),
        ih (by simp) fun t' ht' => hfree t' (List.mem_cons_of_mem t ht')]

theorem joinWith_chars (sep : List Char) (tokens : List (List Char)) :
    ∀ ch ∈ joinWith sep tokens, ch ∈ sep ∨ ∃ t ∈ tokens, ch ∈ t := by
  induction tokens with
  | nil => simp [joinWith]
  | cons t ts ih =>
    cases ts with
    | nil =>
      intro ch hch
      exact Or.inr ⟨t, List.mem_cons_self t [], hch⟩
    | cons t2 ts' =>
      intro ch hch
      show ch ∈ sep ∨ ∃ u ∈ t :: t2 :: ts', ch ∈ u
      rcases List.mem_append.mp hch with hch | hch
      · rcases List.mem_append.mp hch with hch | hch
        · exact Or.inr ⟨t, List.mem_cons_self t _, hch⟩
        · exact Or.inl hch
      · rcases ih ch hch with hch | ⟨u, hu, hchu⟩
        · exact Or.inl hch
        · exact Or.inr ⟨u, List.mem_cons_of_mem t hu, hchu⟩

/-- The CSV path decodes the canonical rendering back to the values. -/
theorem csv_layer_gids_render (vals : List Nat) :
    csv_layer_gids (render_csv vals) = vals := by
  cases hv : vals with
  | nil => rfl
  | cons v vs =>
    have hnl : ('\n' : Char) ∉ render_csv vals := by
      intro hmem
      rcases joinWith_chars [','] (vals.map natRepr) '\n' hmem with h | ⟨t, ht, hcht⟩
      · simp at h
      · obtain ⟨w, _, rfl⟩ := List.mem_map.mp ht
        exact (natRepr_chars w '\n' hcht).2 rfl
    have hsplit : splitOnChar ',' (render_csv vals) = vals.map natRepr := by
      apply splitOnChar_joinWith
      · simp [hv]
      · intro t ht hct
        obtain ⟨w, _, rfl⟩ := List.mem_map.mp ht
        exact (natRepr_chars w ',' hct).1 rfl
    rw [← hv]
    unfold csv_layer_gids
    rw [splitOnChar_not_mem '\n' _ hnl]
    show (((splitOnChar ',' (render_csv vals)).filter fun tok =>
      tok ≠ []).map pyIntDigits) ++ [].flatten = vals
    rw [hsplit]
    simp only [List.flatten_nil, List.append_nil]
    have hfilter : ((vals.map natRepr).filter fun tok => tok ≠ []) =
        vals.map natRepr := by
      apply List.filter_eq_self.mpr
      intro t ht
      obtain ⟨w, _, rfl⟩ := List.mem_map.mp ht
      simpa using natRepr_ne_nil w
    rw [hfilter, List.map_map]
    have : pyIntDigits ∘ natRepr = id := by
      funext w
      exact pyIntDigits_natRepr w
    rw [this, List.map_id]

/-! ## loader.py lines 383-411: TileLayer.init_from_node -/

/-- loader.py lines 386-404, the encoding/compression dispatch of
`TileLayer.init_from_node`, producing the flat raw-gid sequence.
For a base64 node the source first applies `b64decode` to the node
text; that byte sequence is the `decoded_base64` argument here, and
`zlib.decompress` (a stdlib collaborator) is the `inflate` argument.
Branch order follows the source: zlib, then the qzip
`raise NotImplementedError`, then the generic unsupported-compression
raise for any other non-None marker, then `unpack_struct`; a csv node
takes the line/comma splitting path; any other encoding raises the
unsupported-encoding exception. -/
def TileLayer.layer_data_gids (encoding compression : Option String)
    (decoded_base64 : List Nat) (inflate : List Nat → List Nat)
    (text : List Char) : Except LoadError (List Nat) :=
  if encoding = some "base64" then
    if compression = some "zlib" then
      .ok (unpack_struct (inflate decoded_base64))
    else if compression = some "qzip" then
      .error .notImplementedError
    else
      match compression with
      | some c => .error (.unsupportedCompression c)
      | none => .ok (unpack_struct decoded_base64)
  else if encoding = some "csv" then
    .ok (csv_layer_gids text)
  else
    .error (.unsupportedEncoding encoding)

/-- loader.py lines 383-411, `TileLayer.init_from_node` for a layer of
the declared width and height: decode the data node into the raw-gid
sequence, then build the cell tuple through `add_cell` in row-major
order.  The loader state is returned alongside the outcome: when the
decode itself raises, no cell was processed and the state is exactly
the input state. -/
def TileLayer.init_from_node (cfg : MapCfg) (st : LoadSt)
    (width height : Nat) (encoding compression : Option String)
    (decoded_base64 : List Nat) (inflate : List Nat → List Nat)
    (text : List Char) :
    LoadSt × Except LoadError (List (Option CellRec)) :=
  match TileLayer.layer_data_gids encoding compression decoded_base64
      inflate text with
  | .error e => (st, .error e)
  | .ok gids =>
    TileLayer.consume_cells cfg st gids (row_major_coords width height)

/-- C9 amended: a base64 layer whose compression marker is "qzip"
fails with NotImplementedError — the dedicated recognized-but-
unsupported branch, not the generic unsupported-compression
exception — and the loader state (tilesets and tile registry) is
returned exactly as it was: no cell is processed and no placeholder
tile is inserted. -/
theorem c9_qzip_not_implemented (cfg : MapCfg) (st : LoadSt)
    (width height : Nat) (decoded_base64 : List Nat)
    (inflate : List Nat → List Nat) (text : List Char) :
    TileLayer.init_from_node cfg st width height (some "base64")
        (some "qzip") decoded_base64 inflate text =
      (st, .error .notImplementedError) := by
  rfl

/-- C9 counterexample to the claim as stated: on a concrete qzip
layer the raised error is NotImplementedError, which is not the
unsupported-compression error (that one is reserved for markers other
than zlib and qzip, compare the "gzip" run below), though the registry
is indeed left untouched. -/
theorem c9_qzip_counterexample :
    (TileLayer.init_from_node ⟨2, 2, 16, 16, false⟩
          ⟨[⟨1, 16, 16, 0⟩], []⟩ 2 2 (some "base64") (some "qzip") []
          id []).2 = .error .notImplementedError ∧
    LoadError.is_unsupported_compression .notImplementedError = false ∧
    (TileLayer.init_from_node ⟨2, 2, 16, 16, false⟩
          ⟨[⟨1, 16, 16, 0⟩], []⟩ 2 2 (some "base64") (some "qzip") []
          id []).1 = ⟨[⟨1, 16, 16, 0⟩], []⟩ ∧
    (TileLayer.init_from_node ⟨2, 2, 16, 16, false⟩
          ⟨[⟨1, 16, 16, 0⟩], []⟩ 2 2 (some "base64") (some "gzip") []
          id []).2 = .error (.unsupportedCompression "gzip") := by
  refine ⟨rfl, rfl, rfl, rfl⟩

/-- C4: decoding a base64+zlib binary data node whose inflated bytes
are the little-endian word encoding of a 32-bit value grid produces
exactly the same loader state and the same row-major cell sequence
(same (gid, flags) content, same empty slots) as decoding the CSV
rendering of the same values. -/
theorem c4_binary_csv_equal (cfg : MapCfg) (st : LoadSt)
    (width height : Nat) (vals compressed : List Nat)
    (inflate : List Nat → List Nat)
    (h32 : ∀ v ∈ vals, v < 2 ^ 32)
    (hzlib : inflate compressed = vals.flatMap encode_u32le) :
    TileLayer.init_from_node cfg st width height (some "base64")
        (some "zlib") compressed inflate [] =
      TileLayer.init_from_node cfg st width height (some "csv") none []
        inflate (render_csv vals) := by
  unfold TileLayer.init_from_node
  have hbin : TileLayer.layer_data_gids (some "base64") (some "zlib")
      compressed inflate [] = .ok vals := by
    unfold TileLayer.layer_data_gids
    rw [if_pos rfl, if_pos rfl, hzlib, unpack_struct_encode vals h32]
  have hcsv : TileLayer.layer_data_gids (some "csv") none []
      inflate (render_csv vals) = .ok vals := by
    unfold TileLayer.layer_data_gids
    rw [if_neg (by simp), if_pos rfl, csv_layer_gids_render vals]
  rw [hbin, hcsv]

/-- Witness for C4 on a concrete 1x1 grid holding the flagged value
0x80000001, with an inflater mapping the (empty) compressed payload to
its 4-byte encoding. -/
theorem c4_binary_csv_equal_witness :
    TileLayer.init_from_node ⟨1, 1, 16, 16, false⟩ ⟨[⟨1, 16, 16, 0⟩], []⟩
        1 1 (some "base64") (some "zlib") []
        (fun _ => [1, 0, 0, 128]) [] =
      TileLayer.init_from_node ⟨1, 1, 16, 16, false⟩ ⟨[⟨1, 16, 16, 0⟩], []⟩
        1 1 (some "csv") none [] (fun _ => [1, 0, 0, 128])
        (render_csv [2147483649]) :=
  c4_binary_csv_equal ⟨1, 1, 16, 16, false⟩ ⟨[⟨1, 16, 16, 0⟩], []⟩ 1 1
    [2147483649] [] (fun _ => [1, 0, 0, 128]) (by decide) (by decide)

/-- The cell tuple ends when either the grid positions or the payload
run out: its length is the minimum of the two. -/
theorem consume_cells_length (cfg : MapCfg) :
    ∀ (coords : List (Nat × Nat)) (gids : List Nat) (st st' : LoadSt)
      (cells : List (Option CellRec)),
      TileLayer.consume_cells cfg st gids coords = (st', .ok cells) →
      cells.length = min coords.length gids.length := by
  intro coords
  induction coords with
  | nil =>
    intro gids st st' cells h
    simp only [TileLayer.consume_cells, Prod.mk.injEq, Except.ok.injEq] at h
    obtain ⟨-, rfl⟩ := h
    simp
  | cons c cs ih =>
    obtain ⟨x, y⟩ := c
    intro gids st st' cells h
    cases gids with
    | nil =>
      simp only [TileLayer.consume_cells, Prod.mk.injEq, Except.ok.injEq] at h
      obtain ⟨-, rfl⟩ := h
      simp
    | cons g gs =>
      rw [TileLayer.consume_cells] at h
      split at h
      next st1 e heq => simp at h
      next st1 c0 heq =>
        split at h
        next st2 e2 heq2 => simp at h
        next st2 rest heq2 =>
          simp only [Prod.mk.injEq, Except.ok.injEq] at h
          obtain ⟨rfl, rfl⟩ := h
          have := ih gs st1 st2 rest heq2
          simp only [List.length_cons, this]
          omega

/-- C5 amended: a layer load that completes produces a cell sequence
whose length is the minimum of width x height and the number of
supplied raw values — equal to width x height whenever the payload
supplies at least that many values, shorter when the payload runs out
(Python 2 generator semantics swallow the payload iterator's
exhaustion). -/
theorem c5_cells_length_min (cfg : MapCfg) (st st' : LoadSt)
    (width height : Nat) (gids : List Nat)
    (cells : List (Option CellRec))
    (hok : TileLayer.consume_cells cfg st gids
        (row_major_coords width height) = (st', .ok cells)) :
    cells.length = min (width * height) gids.length := by
  have h := consume_cells_length cfg (row_major_coords width height)
    gids st st' cells hok
  rwa [row_major_coords_length, Nat.mul_comm] at h

/-- Witness for C5 amended at a concrete 1x1 layer with payload [0]. -/
theorem c5_cells_length_min_witness :
    ([none] : List (Option CellRec)).length =
      min (1 * 1) ([0] : List Nat).length :=
  c5_cells_length_min ⟨1, 1, 16, 16, false⟩ ⟨[], []⟩ ⟨[], []⟩ 1 1 [0] [none]
    (by decide)

/-- C5 counterexample to the claim as stated: a 2x2 CSV layer whose
payload holds only three values loads successfully — no error — with a
cell sequence of length 3, not width x height = 4. -/
theorem c5_short_payload_counterexample :
    ((TileLayer.init_from_node ⟨2, 2, 16, 16, false⟩ ⟨[⟨1, 16, 16, 0⟩], []⟩
          2 2 (some "csv") none [] id
          ['1', ',', '2', ',', '3']).2).map List.length = .ok 3 ∧
    (3 : Nat) ≠ 2 * 2 := by
  refine ⟨by decide, by decide⟩

/-! ## Placeholder-tile registration (C2)

The pipeline mutates each matched tileset's `maxgid`, but never a
tileset's `firstgid`, `tilewidth` or `tileheight`; the geometry
projection below is the part the reverse scan and placeholder sizing
depend on. -/

/-- The tileset attributes `add_tile` reads but never writes. -/
def TileSetSt.geom (ts : TileSetSt) : Nat × Nat × Nat :=
  (ts.firstgid, ts.tilewidth, ts.tileheight)

theorem list_set_self {α : Type} (l : List α) (i : Nat) (a : α)
    (h : l[i]? = some a) : l.set i a = l := by
  induction l generalizing i with
  | nil => simp at h
  | cons x xs ih =>
    cases i with
    | zero =>
      obtain rfl : x = a := by simpa using h
      rfl
    | succ j =>
      simp only [List.getElem?_cons_succ] at h
      simp [List.set_cons_succ, ih j h]

/-- What a successful `TileLayer.add_tile` produces. -/
theorem add_tile_spec (st : LoadSt) (gid : Nat) (st' : LoadSt)
    (h : TileLayer.add_tile st gid = .ok st') :
    ∃ i ts, get_tileset_ref_by_gid st.tilesets gid = some (i, ts) ∧
      st' = ⟨st.tilesets.set i
          { ts with maxgid := if gid > ts.maxgid then gid else ts.maxgid },
        setKey st.tiles gid ⟨gid, ts.tilewidth, ts.tileheight⟩⟩ := by
  unfold TileLayer.add_tile at h
  split at h
  · simp at h
  next i ts heq =>
    refine ⟨i, ts, heq, ?_⟩
    simp only [Except.ok.injEq] at h
    exact h.symm

/-- `add_tile` never changes any tileset's geometry. -/
theorem add_tile_geom (st : LoadSt) (gid : Nat) (st' : LoadSt)
    (h : TileLayer.add_tile st gid = .ok st') :
    st'.tilesets.map TileSetSt.geom = st.tilesets.map TileSetSt.geom := by
  obtain ⟨i, ts, href, rfl⟩ := add_tile_spec st gid st' h
  have hget : st.tilesets[i]? = some ts := get_tileset_ref_get _ _ _ _ href
  rw [List.map_set]
  apply list_set_self
  rw [List.getElem?_map, hget]
  rfl

/-- `add_cell` never changes any tileset's geometry (whatever the
outcome). -/
theorem add_cell_geom (cfg : MapCfg) (st : LoadSt) (g x y : Nat) :
    (TileLayer.add_cell cfg st g x y).1.tilesets.map TileSetSt.geom =
      st.tilesets.map TileSetSt.geom := by
  unfold TileLayer.add_cell
  by_cases hg : g = 0
  · simp [hg]
  · rw [if_neg hg]
    by_cases hkey : (getKey st.tiles (decode_gid g).1).isNone
    · rw [if_pos hkey]
      cases hadd : TileLayer.add_tile st (decode_gid g).1 with
      | error e => rfl
      | ok st1 => exact add_tile_geom st _ st1 hadd
    · rw [if_neg hkey]

/-- `consume_cells` never changes any tileset's geometry. -/
theorem consume_cells_geom (cfg : MapCfg) :
    ∀ (coords : List (Nat × Nat)) (gids : List Nat) (st : LoadSt),
      (TileLayer.consume_cells cfg st gids coords).1.tilesets.map
          TileSetSt.geom = st.tilesets.map TileSetSt.geom := by
  intro coords
  induction coords with
  | nil => intro gids st; cases gids <;> rfl
  | cons c cs ih =>
    obtain ⟨x, y⟩ := c
    intro gids st
    cases gids with
    | nil => rfl
    | cons g gs =>
      rw [TileLayer.consume_cells]
      have hstep := add_cell_geom cfg st g x y
      split
      next st1 e heq =>
        rw [heq] at hstep
        exact hstep
      next st1 c0 heq =>
        rw [heq] at hstep
        split
        next st2 e2 heq2 =>
          have := ih gs st1
          rw [heq2] at this
          show st2.tilesets.map _ = _
          rw [this, hstep]
        next st2 rest heq2 =>
          have := ih gs st1
          rw [heq2] at this
          show st2.tilesets.map _ = _
          rw [this, hstep]

/-- The reference scan is determined by the tileset geometries. -/
theorem get_tileset_ref_geom_congr (gid : Nat) :
    ∀ (l1 l2 : List TileSetSt),
      l1.map TileSetSt.geom = l2.map TileSetSt.geom →
      (get_tileset_ref_by_gid l1 gid).map
          (fun p => (p.1, TileSetSt.geom p.2)) =
        (get_tileset_ref_by_gid l2 gid).map
          (fun p => (p.1, TileSetSt.geom p.2)) := by
  intro l1
  induction l1 with
  | nil =>
    intro l2 h
    obtain rfl : l2 = [] := by
      cases l2 with
      | nil => rfl
      | cons t r => simp at h
    rfl
  | cons t1 r1 ih =>
    intro l2 h
    cases l2 with
    | nil => simp at h
    | cons t2 r2 =>
      simp only [List.map_cons, List.cons.injEq] at h
      obtain ⟨hgeom, hrest⟩ := h
      have hfg : t1.firstgid = t2.firstgid := congrArg Prod.fst hgeom
      have htail := ih r2 hrest
      show ((match get_tileset_ref_by_gid r1 gid with
        | some (i, r) => some (i + 1, r)
        | none => if t1.firstgid ≤ gid then some (0, t1) else none).map
          (fun p : Nat × TileSetSt => (p.1, TileSetSt.geom p.2))) = _
      show _ = ((match get_tileset_ref_by_gid r2 gid with
        | some (i, r) => some (i + 1, r)
        | none => if t2.firstgid ≤ gid then some (0, t2) else none).map
          (fun p : Nat × TileSetSt => (p.1, TileSetSt.geom p.2)))
      cases h1 : get_tileset_ref_by_gid r1 gid with
      | some p1 =>
        obtain ⟨i1, s1⟩ := p1
        rw [h1] at htail
        cases h2 : get_tileset_ref_by_gid r2 gid with
        | some p2 =>
          obtain ⟨i2, s2⟩ := p2
          rw [h2] at htail
          obtain ⟨hi, hs⟩ : i1 = i2 ∧ TileSetSt.geom s1 = TileSetSt.geom s2 := by
            simpa using htail
          simp [hi, hs]
        | none =>
          rw [h2] at htail
          simp at htail
      | none =>
        rw [h1] at htail
        cases h2 : get_tileset_ref_by_gid r2 gid with
        | some p2 =>
          rw [h2] at htail
          simp at htail
        | none =>
          by_cases hle : t2.firstgid ≤ gid
          · simp only [hfg]
            simp [hle, hgeom]
          · simp only [hfg]
            simp [hle]

/-- `add_cell` never removes or overwrites an existing registry entry
(placeholder synthesis runs only for unregistered gids). -/
theorem add_cell_preserves (cfg : MapCfg) (st : LoadSt) (g x y k : Nat)
    (t : TileRec) (hk : getKey st.tiles k = some t) :
    getKey (TileLayer.add_cell cfg st g x y).1.tiles k = some t := by
  unfold TileLayer.add_cell
  by_cases hg : g = 0
  · simpa [hg] using hk
  · rw [if_neg hg]
    by_cases hkey : (getKey st.tiles (decode_gid g).1).isNone
    · rw [if_pos hkey]
      cases hadd : TileLayer.add_tile st (decode_gid g).1 with
      | error e => simpa using hk
      | ok st1 =>
        obtain ⟨i, ts, href, rfl⟩ := add_tile_spec st _ st1 hadd
        have hne : (decode_gid g).1 ≠ k := by
          intro he
          rw [he, hk] at hkey
          simp at hkey
        simpa [getKey_setKey_ne _ _ _ _ hne] using hk
    · rw [if_neg hkey]
      exact hk

/-- `consume_cells` never removes or overwrites an existing registry
entry, whatever its outcome. -/
theorem consume_cells_preserves (cfg : MapCfg) :
    ∀ (coords : List (Nat × Nat)) (gids : List Nat) (st : LoadSt)
      (k : Nat) (t : TileRec),
      getKey st.tiles k = some t →
      getKey ((TileLayer.consume_cells cfg st gids coords).1).tiles k =
        some t := by
  intro coords
  induction coords with
  | nil => intro gids st k t hk; cases gids <;> exact hk
  | cons c cs ih =>
    obtain ⟨x, y⟩ := c
    intro gids st k t hk
    cases gids with
    | nil => exact hk
    | cons g gs =>
      rw [TileLayer.consume_cells]
      have hstep := add_cell_preserves cfg st g x y k t hk
      split
      next st1 e heq =>
        rw [heq] at hstep
        exact hstep
      next st1 c0 heq =>
        rw [heq] at hstep
        have := ih gs st1 k t hstep
        split
        next st2 e2 heq2 =>
          rw [heq2] at this
          exact this
        next st2 rest heq2 =>
          rw [heq2] at this
          exact this

/-- When `add_cell` processes a nonzero raw gid whose decoded id is
unregistered and succeeds, it has inserted a placeholder sized from
the tileset found by the reverse scan. -/
theorem add_cell_insert (cfg : MapCfg) (st : LoadSt) (g x y : Nat)
    (st1 : LoadSt) (c0 : Option CellRec)
    (hg : g ≠ 0) (hnone : getKey st.tiles (decode_gid g).1 = none)
    (heq : TileLayer.add_cell cfg st g x y = (st1, .ok c0)) :
    ∃ i ts, get_tileset_ref_by_gid st.tilesets (decode_gid g).1 =
        some (i, ts) ∧
      st1.tiles = setKey st.tiles (decode_gid g).1
        ⟨(decode_gid g).1, ts.tilewidth, ts.tileheight⟩ := by
  unfold TileLayer.add_cell at heq
  rw [if_neg hg, if_pos (by simp [hnone])] at heq
  cases hadd : TileLayer.add_tile st (decode_gid g).1 with
  | error e =>
    rw [hadd] at heq
    simp at heq
  | ok stA =>
    rw [hadd] at heq
    simp only [Prod.mk.injEq] at heq
    obtain ⟨rfl, -⟩ := heq
    obtain ⟨i, ts, href, rfl⟩ := add_tile_spec st _ stA hadd
    exact ⟨i, ts, href, rfl⟩

/-- A successful reverse-scan lookup transports across geometry-equal
tileset lists: the result tilesets share tilewidth and tileheight. -/
theorem by_gid_geom_transport (m : Nat) (l1 l2 : List TileSetSt)
    (hgeo : l1.map TileSetSt.geom = l2.map TileSetSt.geom)
    (ts1 : TileSetSt) (h : get_tileset_by_gid l1 m = some ts1) :
    ∃ ts2, get_tileset_by_gid l2 m = some ts2 ∧
      ts2.tilewidth = ts1.tilewidth ∧ ts2.tileheight = ts1.tileheight := by
  rw [get_tileset_by_gid_eq_ref] at h ⊢
  have hc := get_tileset_ref_geom_congr m l1 l2 hgeo
  cases h1 : get_tileset_ref_by_gid l1 m with
  | none =>
    rw [h1] at h
    simp at h
  | some p1 =>
    obtain ⟨i1, s1⟩ := p1
    rw [h1] at h hc
    obtain rfl : s1 = ts1 := by simpa using h
    cases h2 : get_tileset_ref_by_gid l2 m with
    | none =>
      rw [h2] at hc
      simp at hc
    | some p2 =>
      obtain ⟨i2, s2⟩ := p2
      rw [h2] at hc
      obtain ⟨-, hgeq⟩ : i1 = i2 ∧ TileSetSt.geom s1 = TileSetSt.geom s2 := by
        simpa using hc
      refine ⟨s2, rfl, ?_, ?_⟩
      · exact (congrArg (fun q : Nat × Nat × Nat => q.2.1) hgeq).symm
      · exact (congrArg (fun q : Nat × Nat × Nat => q.2.2) hgeq).symm

/-- The registration induction: any nonzero raw gid consumed during a
successful cell pass whose decoded id was unregistered at the start
ends registered under the decoded id, as a placeholder sized from the
tileset the reverse scan finds for that id. -/
theorem consume_cells_registers (cfg : MapCfg) :
    ∀ (coords : List (Nat × Nat)) (gids : List Nat) (st st' : LoadSt)
      (cells : List (Option CellRec)) (raw : Nat),
      TileLayer.consume_cells cfg st gids coords = (st', .ok cells) →
      raw ∈ gids.take coords.length →
      raw ≠ 0 →
      getKey st.tiles (decode_gid raw).1 = none →
      ∃ ts, get_tileset_by_gid st.tilesets (decode_gid raw).1 = some ts ∧
        getKey st'.tiles (decode_gid raw).1 =
          some ⟨(decode_gid raw).1, ts.tilewidth, ts.tileheight⟩ := by
  intro coords
  induction coords with
  | nil =>
    intro gids st st' cells raw hok hmem hraw hnew
    simp at hmem
  | cons c cs ih =>
    obtain ⟨x, y⟩ := c
    intro gids st st' cells raw hok hmem hraw hnew
    cases gids with
    | nil => simp at hmem
    | cons g gs =>
      rw [List.length_cons, List.take_succ_cons] at hmem
      rw [TileLayer.consume_cells] at hok
      split at hok
      next st1 e heq => simp at hok
      next st1 c0 heq =>
        split at hok
        next st2 e2 heq2 => simp at hok
        next st2 rest heq2 =>
          simp only [Prod.mk.injEq, Except.ok.injEq] at hok
          obtain ⟨rfl, rfl⟩ := hok
          rcases List.mem_cons.mp hmem with rfl | hmem'
          · -- the head raw gid is the one in question
            obtain ⟨i, ts, href, htiles⟩ :=
              add_cell_insert cfg st raw x y st1 c0 hraw hnew heq
            have hsome : getKey st1.tiles (decode_gid raw).1 =
                some ⟨(decode_gid raw).1, ts.tilewidth, ts.tileheight⟩ := by
              rw [htiles]
              exact getKey_setKey_self _ _ _
            have hpres := consume_cells_preserves cfg cs gs st1 _ _ hsome
            rw [heq2] at hpres
            refine ⟨ts, ?_, hpres⟩
            rw [get_tileset_by_gid_eq_ref, href]
            rfl
          · -- the raw gid in question sits in the tail
            by_cases hcur : getKey st1.tiles (decode_gid raw).1 = none
            · obtain ⟨ts1, hts1, hreg⟩ :=
                ih gs st1 st2 rest raw heq2 hmem' hraw hcur
              have hgeo : st1.tilesets.map TileSetSt.geom =
                  st.tilesets.map TileSetSt.geom := by
                have hs := add_cell_geom cfg st g x y
                rw [heq] at hs
                exact hs
              obtain ⟨ts2, hts2, hw, hh⟩ :=
                by_gid_geom_transport _ st1.tilesets st.tilesets hgeo ts1 hts1
              exact ⟨ts2, hts2, by rw [hreg, hw, hh]⟩
            · -- the id got registered by this very head cell
              by_cases hg0 : g = 0
              · exfalso
                unfold TileLayer.add_cell at heq
                rw [if_pos hg0] at heq
                simp only [Prod.mk.injEq] at heq
                obtain ⟨rfl, -⟩ := heq
                exact hcur hnew
              · by_cases hkey : getKey st.tiles (decode_gid g).1 = none
                · obtain ⟨i, tsg, href, htiles⟩ :=
                    add_cell_insert cfg st g x y st1 c0 hg0 hkey heq
                  by_cases hmm : (decode_gid g).1 = (decode_gid raw).1
                  · rw [hmm] at htiles
                    have hsome : getKey st1.tiles (decode_gid raw).1 =
                        some ⟨(decode_gid raw).1, tsg.tilewidth,
                          tsg.tileheight⟩ := by
                      rw [htiles]
                      exact getKey_setKey_self _ _ _
                    have hpres := consume_cells_preserves cfg cs gs st1 _ _ hsome
                    rw [heq2] at hpres
                    refine ⟨tsg, ?_, hpres⟩
                    rw [get_tileset_by_gid_eq_ref, ← hmm, href]
                    rfl
                  · exfalso
                    apply hcur
                    rw [htiles, getKey_setKey_ne _ _ _ _ hmm]
                    exact hnew
                · exfalso
                  unfold TileLayer.add_cell at heq
                  rw [if_neg hg0,
                    if_neg (by simpa [Option.isNone_iff_eq_none] using hkey)]
                    at heq
                  simp only [Prod.mk.injEq] at heq
                  obtain ⟨rfl, -⟩ := heq
                  exact hcur hnew

/-- C2 amended: when a completing layer load consumes a nonzero raw
gid whose decoded (masked) id was not yet registered, the load
synthesizes a TileElement registered under the *masked id* — not under
the raw flagged value — sized from the owning tileset's declared tile
cell dimensions, and looking the masked id up in the registry
succeeds afterwards. -/
theorem c2_placeholder_registered (cfg : MapCfg) (st st' : LoadSt)
    (width height : Nat) (gids : List Nat)
    (cells : List (Option CellRec)) (raw : Nat)
    (hok : TileLayer.consume_cells cfg st gids
        (row_major_coords width height) = (st', .ok cells))
    (hmem : raw ∈ gids.take (width * height))
    (hraw : raw ≠ 0)
    (hnew : getKey st.tiles (decode_gid raw).1 = none) :
    ∃ ts, get_tileset_by_gid st.tilesets (decode_gid raw).1 = some ts ∧
      getKey st'.tiles (decode_gid raw).1 =
        some ⟨(decode_gid raw).1, ts.tilewidth, ts.tileheight⟩ := by
  apply consume_cells_registers cfg _ gids st st' cells raw hok ?_ hraw hnew
  rwa [row_major_coords_length, Nat.mul_comm]

/-- Witness for C2 amended: a 1x1 layer holding raw gid 0x80000001
(id 1 with the horizontal flag), one tileset with firstgid 1 and cell
size 16x16: after the load the masked id 1 is registered with a
16x16 placeholder. -/
theorem c2_placeholder_registered_witness :
    ∃ ts, get_tileset_by_gid [⟨1, 16, 16, 0⟩] (decode_gid 2147483649).1 =
        some ts ∧
      getKey (LoadSt.mk [⟨1, 16, 16, 1⟩] [(1, ⟨1, 16, 16⟩)]).tiles
          (decode_gid 2147483649).1 =
        some ⟨(decode_gid 2147483649).1, ts.tilewidth, ts.tileheight⟩ :=
  c2_placeholder_registered ⟨1, 1, 16, 16, false⟩ ⟨[⟨1, 16, 16, 0⟩], []⟩
    ⟨[⟨1, 16, 16, 1⟩], [(1, ⟨1, 16, 16⟩)]⟩ 1 1 [2147483649]
    [some ⟨1, ⟨true, false, false⟩, 0, 0⟩] 2147483649
    (by decide) (by decide) (by decide) (by decide)

/-- C2 counterexample to the claim as stated: the same 1x1 load
completes, but no TileElement is registered under the raw value
G = 0x80000001 itself (the placeholder sits under the masked id 1),
so map.get_tile(G) raises a KeyError rather than returning a tile. -/
theorem c2_raw_gid_not_registered :
    TileLayer.consume_cells ⟨1, 1, 16, 16, false⟩ ⟨[⟨1, 16, 16, 0⟩], []⟩
        [2147483649] (row_major_coords 1 1) =
      (⟨[⟨1, 16, 16, 1⟩], [(1, ⟨1, 16, 16⟩)]⟩,
        .ok [some ⟨1, ⟨true, false, false⟩, 0, 0⟩]) ∧
    getKey [(1, (⟨1, 16, 16⟩ : TileRec))] 2147483649 = none ∧
    (2147483649 : Nat) ≠ 0 ∧
    getKey ([] : Registry) (decode_gid 2147483649).1 = none := by
  refine ⟨by decide, by decide, by decide, by decide⟩

/-! ## loader.py lines 48-65: Element.set_attr, instantiated at TileElement

Python attribute semantics for one concrete entity type.  `hasattr`
is true for instance attributes *and* for anything reachable on the
class: methods, class attributes, and properties.  `setattr` stores an
instance attribute (shadowing a class method or attribute of the same
name) except on a property without a setter, where it raises
AttributeError. -/

/-- The values attribute population moves around.  Python floats are
kept symbolically as their source text (no verified property computes
with them). -/
inductive PyVal
  | pyNone
  | pyInt (i : Int)
  | pyFloat (text : String)
  | pyStr (s : String)
  | pyBool (b : Bool)
  | pyDict (entries : List (String × String))
deriving DecidableEq, Repr

/-- Attribute-population errors: `attributeError` for setattr on a
getter-only property, `valueError` for a failing conversion
(`int(...)`, unknown boolean). -/
inductive AttrError
  | attributeError
  | valueError
deriving DecidableEq, Repr

/-- utils.py lines 89-118: the names converted with `int`. -/
def int_attr_names : List String :=
  ["firstgid", "gid", "height", "id", "margin", "spacing", "tilecount",
   "tileheight", "tilewidth", "width", "tileid", "duration"]

/-- utils.py lines 89-118: the names converted with `float`. -/
def float_attr_names : List String :=
  ["opacity", "rotation", "version", "x", "y"]

/-- utils.py lines 70-86, `convert_to_bool`: accept the three true
and three false spellings, anything else raises.  (The
`try: bool(int(value))` line computes a value it then discards, so it
has no effect on the outcome.) -/
def convert_to_bool (value : String) : Except AttrError Bool :=
  if value = "true" ∨ value = "yes" ∨ value = "1" then .ok true
  else if value = "false" ∨ value = "no" ∨ value = "0" then .ok false
  else .error .valueError

/-- Python `int(...)` as used by the conversion table: identity on
ints, decimal parse on all-digit strings (sign handling is not
exercised by any verified property), error otherwise. -/
def py_int_conv : PyVal → Except AttrError PyVal
  | .pyInt i => .ok (.pyInt i)
  | .pyStr s =>
    if s.length ≠ 0 ∧ s.data.all (fun c => c.isDigit) then
      .ok (.pyInt (pyIntDigits s.data))
    else .error .valueError
  | _ => .error .valueError

/-- Python `float(...)`: kept symbolic. -/
def py_float_conv : PyVal → Except AttrError PyVal
  | .pyFloat t => .ok (.pyFloat t)
  | .pyStr s => .ok (.pyFloat s)
  | .pyInt i => .ok (.pyFloat (toString i))
  | _ => .error .valueError

/-- Python `str(...)`: identity on strings, canonical text otherwise
(only the string case is exercised by the verified properties). -/
def py_str_conv : PyVal → PyVal
  | .pyStr s => .pyStr s
  | .pyNone => .pyStr "None"
  | .pyInt i => .pyStr (toString i)
  | .pyFloat t => .pyStr t
  | .pyBool b => .pyStr (if b then "True" else "False")
  | .pyDict _ => .pyStr ""

/-- utils.py lines 121-122, `to_python`: look the converter up by
attribute name, defaulting to `str` passthrough. -/
def to_python (property_name : String) (value : PyVal) :
    Except AttrError PyVal :=
  if property_name ∈ int_attr_names then py_int_conv value
  else if property_name ∈ float_attr_names then py_float_conv value
  else if property_name = "visible" then
    match value with
    | .pyStr s => (convert_to_bool s).map .pyBool
    | _ => .error .valueError
  else .ok (py_str_conv value)

/-- loader.py lines 242-254 (plus Element.__init__ line 16): the
instance attributes a TileElement predeclares with defaults. -/
def TileElement.instance_attr_defaults : List (String × PyVal) :=
  [("properties", .pyDict []),
   ("uvs", .pyNone), ("image", .pyNone),
   ("width", .pyInt 0), ("height", .pyInt 0), ("source", .pyNone),
   ("id", .pyNone), ("gid", .pyNone), ("terrain", .pyNone),
   ("probability", .pyNone)]

/-- Class-level read-only properties reachable on a TileElement:
`size` and `rect` (loader.py lines 262-271), `parent` and `root`
(ChildMixin, lines 79-88).  None has a setter. -/
def TileElement.property_names : List String :=
  ["size", "rect", "parent", "root"]

/-- Class-level methods and class attributes reachable on a
TileElement — `hasattr` also finds these, and assigning to such a name
stores an instance attribute shadowing the class member. -/
def TileElement.method_names : List String :=
  ["description_attribute", "set_property", "set_properties_from_node",
   "set_attr", "set_attrs_from_node", "init_from_node",
   "prepare_attr_id", "prepare_attr_source", "handle_animation",
   "set_uvs"]

/-- A TileElement's mutable instance state: its `__dict__`. -/
structure TileElementSt where
  attrs : List (String × PyVal)
deriving DecidableEq, Repr

/-- A freshly constructed TileElement (before any node or kwargs
population). -/
def TileElement.fresh : TileElementSt := ⟨TileElement.instance_attr_defaults⟩

/-- Python `hasattr` on a TileElement: instance dict, class
properties, or class methods/attributes. -/
def TileElementSt.hasattr (e : TileElementSt) (name : String) : Bool :=
  (getKey e.attrs name).isSome || name ∈ TileElement.property_names ||
    name ∈ TileElement.method_names

/-- loader.py lines 48-61, `Element.set_attr` on a TileElement:
return silently when `hasattr` fails; otherwise convert with
`to_python`, run the `prepare_attr_...` hook when the class defines
one (`prepare_attr_id` derives and stores the gid from the owning
tileset's firstgid, loader.py 288-290; `prepare_attr_source` resolves
the path, modelled by the `resolve` argument, loader.py 91-94), then
`setattr` — which raises AttributeError on a getter-only property and
otherwise stores the instance attribute. -/
def TileElement.set_attr (firstgid : Nat) (resolve : String → String)
    (e : TileElementSt) (attr_name : String) (value : PyVal) :
    Except AttrError TileElementSt :=
  if ¬ e.hasattr attr_name then .ok e
  else
    match to_python attr_name value with
    | .error err => .error err
    | .ok v =>
      let hooked :=
        if attr_name = "id" then
          match v with
          | .pyInt i =>
            (TileElementSt.mk (setKey e.attrs "gid" (.pyInt (firstgid + i))),
              PyVal.pyInt i)
          | _ => (e, v)
        else if attr_name = "source" then
          match v with
          | .pyStr s => (e, PyVal.pyStr (resolve s))
          | _ => (e, v)
        else (e, v)
      if attr_name ∈ TileElement.property_names then .error .attributeError
      else .ok ⟨setKey hooked.1.attrs attr_name hooked.2⟩

/-- C10: `set_attr` with the name "rect" — which is *not* one of the
attributes predeclared with a default on TileElement, but is a
class-level getter-only property — raises AttributeError instead of
silently ignoring the attribute, contradicting the claim and the
code's own comment ("omit all attributes that aren't explicitly set
on instance"); a name the entity has no attribute of any kind for
("custom") is indeed silently ignored with the entity unchanged. -/
theorem c10_set_attr_property_collision :
    TileElement.set_attr 1 id TileElement.fresh "rect" (.pyStr "anything") =
      .error .attributeError ∧
    getKey TileElement.fresh.attrs "rect" = none ∧
    "rect" ∉ TileElement.instance_attr_defaults.map Prod.fst ∧
    TileElement.set_attr 1 id TileElement.fresh "custom" (.pyStr "v") =
      .ok TileElement.fresh := by
  refine ⟨by decide, by decide, by decide, by decide⟩

end Tmxloader
